import Mathlib

/-!
Shallow embedding of the Go package `hermannm.dev/opt` (file `opt.go`): a generic
optional-value container `Option[T]` with a presence flag and a value slot.

Modelling conventions:
- Go's `Option[T]` struct becomes the structure `opt.Option α` with fields
  `hasValue : Bool` and `Value : α`.
- Go's zero value of `T` is modelled by `default` from an `Inhabited α` instance;
  a Go struct literal that omits a field zero-initializes it, so e.g.
  `Option[T]{hasValue: false}` becomes `{ hasValue := false, Value := default }`.
- Go pointers `*T` are modelled by `Ptr α` (Lean `Option α`): `nil` is `none`,
  a non-nil pointer to `v` is `some v` (the option copies the pointee by value).
- Pointer-receiver methods (`Put`, `Clear`, `UnmarshalJSON`) become state
  transformers returning the new option state.
- Byte slices `[]byte` are modelled as `List Nat` of byte values.
- `database/sql`'s `Null[T]` struct becomes the structure `sql.Null α`.
- The `encoding/json` hooks for the element type `T` (`json.Marshal`, which
  returns bytes and an error, and `json.Unmarshal`, which writes through a
  pointer to the value slot and returns an error) are abstracted as a
  `JSONCodec`: `unmarshal` maps the input bytes and the current slot contents to
  the slot contents after the call together with the returned error.
- `fmt.Sprint` applied to a value of type `T` is abstracted as a function
  `fmtT : α → String` (the value's own string representation).
-/

/-- Go pointer `*T`: `nil` is `none`, a non-nil pointer to `v` is `some v`. -/
abbrev Ptr (α : Type) : Type := Option α

/-- A Go `error` return of the underlying error type `ε`: `none` is Go's `nil`
error (success), `some e` a non-nil error. -/
abbrev GoError (ε : Type) : Type := Option ε

/-- Go `database/sql`'s `Null[T]` struct: `Valid` is true when the column value
is non-NULL, `V` holds the value. -/
structure sql.Null (α : Type) where
  Valid : Bool
  V : α
  deriving DecidableEq, Repr

/-- The element type's `encoding/json` hooks, which live outside this package:
`marshal` models `json.Marshal` on a `T` (returning bytes and an error), and
`unmarshal` models `json.Unmarshal` into a `*T` target, mapping the input bytes
and the current target contents to the target contents after the call together
with the returned error (`none` for Go's `nil` error). -/
structure JSONCodec (ε α : Type) where
  marshal : α → List Nat × GoError ε
  unmarshal : List Nat → α → α × GoError ε

/-- Go `opt.Option[T]`: a container that either has a value or is empty. -/
structure opt.Option (α : Type) where
  hasValue : Bool
  Value : α
  deriving DecidableEq, Repr

/-- Constructor `opt.Value`: an option containing the given value. -/
def opt.Value {α : Type} (value : α) : opt.Option α :=
  { hasValue := true, Value := value }

/-- Constructor `opt.Empty`: an empty option. The Go struct literal
`Option[T]{hasValue: false}` zero-initializes the omitted `Value` field. -/
def opt.Empty (α : Type) [Inhabited α] : opt.Option α :=
  { hasValue := false, Value := default }

/-- Constructor `opt.FromPointer`: dereferences the pointer, or returns an empty
option when the pointer is nil. -/
def opt.FromPointer {α : Type} [Inhabited α] (pointer : Ptr α) : opt.Option α :=
  match pointer with
  | none => { hasValue := false, Value := default }
  | some value => { hasValue := true, Value := value }

/-- Method `Option.HasValue`. -/
def opt.Option.HasValue {α : Type} (option : opt.Option α) : Bool :=
  option.hasValue

/-- Method `Option.IsEmpty`. -/
def opt.Option.IsEmpty {α : Type} (option : opt.Option α) : Bool :=
  !option.hasValue

/-- Method `Option.Get`: returns the value and an ok flag. -/
def opt.Option.Get {α : Type} (option : opt.Option α) : α × Bool :=
  (option.Value, option.hasValue)

/-- Method `Option.GetOrDefault`. -/
def opt.Option.GetOrDefault {α : Type} (option : opt.Option α) (defaultValue : α) : α :=
  if option.hasValue then option.Value else defaultValue

/-- Pointer-receiver method `Option.Put`, as a state transformer: sets the
presence flag and overwrites the value slot. -/
def opt.Option.Put {α : Type} (option : opt.Option α) (value : α) : opt.Option α :=
  { option with hasValue := true, Value := value }

/-- Pointer-receiver method `Option.Clear`, as a state transformer: replaces the
whole struct with `Option[T]{hasValue: false}`, zero-initializing the value
slot. -/
def opt.Option.Clear {α : Type} [Inhabited α] (option : opt.Option α) : opt.Option α :=
  { hasValue := false, Value := default }

/-- Method `Option.ToPointer`: nil when empty, otherwise a pointer to (a copy
of) the value. -/
def opt.Option.ToPointer {α : Type} (option : opt.Option α) : Ptr α :=
  if option.hasValue then some option.Value else none

/-- Function `opt.FromSQL`: a null SQL value becomes an empty option (the Go
struct literal zero-initializes the omitted `Value` field). -/
def opt.FromSQL {α : Type} [Inhabited α] (n : sql.Null α) : opt.Option α :=
  if n.Valid then { hasValue := true, Value := n.V }
  else { hasValue := false, Value := default }

/-- Method `Option.ToSQL`. -/
def opt.Option.ToSQL {α : Type} (option : opt.Option α) : sql.Null α :=
  { Valid := option.hasValue, V := option.Value }

/-- Method `Option.String`: delegates to the value's own string representation
(`fmt.Sprint`, abstracted as `fmtT`) when present, otherwise the literal
`<empty>`. -/
def opt.Option.StringRepr {α : Type} (fmtT : α → String) (option : opt.Option α) : String :=
  if option.hasValue then fmtT option.Value else "<empty>"

/-- The 4 bytes of the JSON literal `null`: `'n'`, `'u'`, `'l'`, `'l'`. -/
def nullJSON : List Nat := [110, 117, 108, 108]

/-- Method `Option.MarshalJSON`: marshals the value when present, otherwise the
byte literal `null` with a nil error. -/
def opt.Option.MarshalJSON {ε α : Type} (codec : JSONCodec ε α) (option : opt.Option α) :
    List Nat × GoError ε :=
  if option.hasValue then codec.marshal option.Value else (nullJSON, none)

/-- Pointer-receiver method `Option.UnmarshalJSON`, as a state transformer
returning the new state and the returned error. Mirrors the source: the
`isNull` test checks length 4 and the four bytes of `null`; on null it only
clears `hasValue`; otherwise it sets `hasValue` and calls `json.Unmarshal`
into the value slot. -/
def opt.Option.UnmarshalJSON {ε α : Type} (codec : JSONCodec ε α) (option : opt.Option α)
    (jsonValue : List Nat) : opt.Option α × GoError ε :=
  let isNull := jsonValue.length == 4 &&
    jsonValue.getD 0 0 == 110 &&
    jsonValue.getD 1 0 == 117 &&
    jsonValue.getD 2 0 == 108 &&
    jsonValue.getD 3 0 == 108
  if isNull then
    ({ option with hasValue := false }, none)
  else
    let result := codec.unmarshal jsonValue option.Value
    ({ option with hasValue := true, Value := result.1 }, result.2)

/-- The Go zero value of `Option[T]` (`var option opt.Option[T]`): every field
zero-initialized, so `hasValue = false` and `Value` is `T`'s zero value. -/
def opt.Option.zero (α : Type) [Inhabited α] : opt.Option α :=
  { hasValue := false, Value := default }

/-- The spec's data-model invariant: when the presence flag is false, the value
slot holds the default-initialized representation of `T`. -/
abbrev opt.Option.invariant {α : Type} [Inhabited α] (option : opt.Option α) : Prop :=
  option.hasValue = false → option.Value = default

/-- Modelled from the spec: the standard JSON serialization of Go `string`
values (`encoding/json`, outside this repository). Encoding wraps the
character sequence in double quotes, escaping the quote and backslash
characters with a backslash; other escape forms are not exercised by the
spec's scenarios and are left out. -/
def jsonStringEncodeChars : List Char → List Nat
  | [] => []
  | c :: rest =>
    (if c = '"' then [92, 34]
     else if c = '\\' then [92, 92]
     else [c.toNat]) ++ jsonStringEncodeChars rest

/-- Modelled from the spec: JSON encoding of a whole Go string — the escaped
characters wrapped in double quotes (byte 34). -/
def jsonStringEncode (s : String) : List Nat :=
  [34] ++ jsonStringEncodeChars s.data ++ [34]

/-- Modelled from the spec: decoding the characters of a JSON string after the
opening quote, up to and including the closing quote. Fails (`none`) on
unescaped quotes or backslashes, control bytes, bytes outside the single-byte
range, unsupported escapes, or a missing closing quote. -/
def jsonStringDecodeChars : List Nat → Option (List Char)
  | [] => none
  | [34] => some []
  | 92 :: 34 :: rest => (jsonStringDecodeChars rest).map (fun cs => '"' :: cs)
  | 92 :: 92 :: rest => (jsonStringDecodeChars rest).map (fun cs => '\\' :: cs)
  | 92 :: _ => none
  | c :: rest =>
    if c = 34 ∨ c = 92 ∨ c < 32 ∨ 255 < c then none
    else (jsonStringDecodeChars rest).map (fun cs => Char.ofNat c :: cs)

/-- Modelled from the spec: the standard JSON deserialization of a Go string —
the bytes must form a double-quoted JSON string, anything else is a
deserialization error. -/
def jsonStringDecode (b : List Nat) : Option String :=
  match b with
  | 34 :: rest => (jsonStringDecodeChars rest).map (fun cs => String.mk cs)
  | _ => none

/-- Modelled from the spec: the `encoding/json` hooks for `T = string`. On a
decode failure `json.Unmarshal` reports an error and leaves the target
unchanged. -/
def stringJSONCodec : JSONCodec String String where
  marshal := fun s => (jsonStringEncode s, none)
  unmarshal := fun b cur =>
    match jsonStringDecode b with
    | some s => (s, none)
    | none => (cur, some "json: cannot unmarshal into string")

/-- The source's `isNull` test (length check plus four indexed byte
comparisons) holds exactly when the input is the 4-byte literal `null`. -/
theorem opt.Option.isNull_check_eq (b : List Nat) :
    (b.length == 4 &&
      b.getD 0 0 == 110 &&
      b.getD 1 0 == 117 &&
      b.getD 2 0 == 108 &&
      b.getD 3 0 == 108) = decide (b = nullJSON) := by
  rcases b with _ | ⟨x0, _ | ⟨x1, _ | ⟨x2, _ | ⟨x3, _ | ⟨x4, rest⟩⟩⟩⟩⟩ <;>
    · rw [Bool.eq_iff_iff]
      simp [nullJSON, List.getD, and_assoc]

/-- Case analysis of `UnmarshalJSON`: on exactly the 4-byte `null` literal the
flag is cleared and the error is nil; otherwise the flag is set and the value
slot and error come from the element codec. -/
theorem opt.Option.unmarshalJSON_eq_ite {ε α : Type} (codec : JSONCodec ε α)
    (s : opt.Option α) (b : List Nat) :
    s.UnmarshalJSON codec b =
      if b = nullJSON then ({ s with hasValue := false }, none)
      else ({ s with hasValue := true, Value := (codec.unmarshal b s.Value).1 },
            (codec.unmarshal b s.Value).2) := by
  unfold opt.Option.UnmarshalJSON
  rw [opt.Option.isNull_check_eq]
  by_cases h : b = nullJSON <;> simp [h]

/-- C1 counterexample: the state `⟨hasValue := true, Value := "x"⟩` satisfies the
invariant (vacuously), but unmarshaling the JSON literal `null` from it clears
the presence flag without resetting the value slot, producing
`⟨hasValue := false, Value := "x"⟩`, which violates the invariant. -/
theorem C1_invariant_not_preserved_counterexample :
    (opt.Option.mk true "x").invariant ∧
    ¬ (((opt.Option.mk true "x").UnmarshalJSON stringJSONCodec nullJSON).1).invariant := by
  constructor
  · exact fun h => nomatch h
  · intro hinv
    have h := hinv rfl
    exact absurd h (by decide)

/-- C1 amended: `Value`, `Empty`, `FromPointer`, `Put`, `Clear` and `FromSQL`
always produce states satisfying the invariant (`hasValue = false →
Value = default`); value-receiver observations do not change the state; and
`UnmarshalJSON` preserves the invariant except when the input is the `null`
literal and the value slot does not already hold the default — on `null` it
only clears the flag, leaving the slot's previous contents in place. -/
theorem C1_invariant_preservation_amended {ε α : Type} [Inhabited α]
    (codec : JSONCodec ε α) (s : opt.Option α) (v : α) (p : Ptr α) (n : sql.Null α)
    (b : List Nat) (hs : s.invariant) (hb : b ≠ nullJSON ∨ s.Value = default) :
    (opt.Value v).invariant ∧
    (opt.Empty α).invariant ∧
    (opt.FromPointer p).invariant ∧
    (s.Put v).invariant ∧
    s.Clear.invariant ∧
    (opt.FromSQL n).invariant ∧
    ((s.UnmarshalJSON codec b).1).invariant := by
  refine ⟨?_, ?_, ?_, ?_, ?_, ?_, ?_⟩
  · exact fun h => nomatch h
  · exact fun _ => rfl
  · cases p
    · exact fun _ => rfl
    · exact fun h => nomatch h
  · exact fun h => nomatch h
  · exact fun _ => rfl
  · obtain ⟨valid, w⟩ := n
    cases valid
    · exact fun _ => rfl
    · exact fun h => nomatch h
  · rw [opt.Option.unmarshalJSON_eq_ite]
    by_cases hnull : b = nullJSON
    · rw [if_pos hnull]
      rcases hb with hb | hb
      · exact absurd hnull hb
      · exact fun _ => hb
    · rw [if_neg hnull]
      exact fun h => nomatch h

/-- Witness for the amended C1 theorem at concrete inputs: element type
`String`, starting state the empty option, `null` input. -/
theorem C1_invariant_preservation_amended_witness :
    (opt.Value "a").invariant ∧
    (opt.Empty String).invariant ∧
    (opt.FromPointer (none : Ptr String)).invariant ∧
    ((opt.Option.mk false "").Put "a").invariant ∧
    (opt.Option.mk false "").Clear.invariant ∧
    (opt.FromSQL (sql.Null.mk false "z")).invariant ∧
    (((opt.Option.mk false "").UnmarshalJSON stringJSONCodec nullJSON).1).invariant :=
  C1_invariant_preservation_amended stringJSONCodec (opt.Option.mk false "") "a" none
    (sql.Null.mk false "z") nullJSON (fun _ => rfl) (Or.inr rfl)

/-- C2: `UnmarshalJSON` on any input bytes and starting state: on exactly the
4-byte literal `null` it clears the presence flag and returns a nil error;
on anything else it sets the presence flag, decodes the bytes into the value
slot with the element type's JSON deserialization, and returns that
deserialization's error to the caller. -/
theorem C2_unmarshal_behavior {ε α : Type} (codec : JSONCodec ε α) (s : opt.Option α)
    (b : List Nat) :
    s.UnmarshalJSON codec b =
      if b = nullJSON then ({ s with hasValue := false }, none)
      else ({ s with hasValue := true, Value := (codec.unmarshal b s.Value).1 },
            (codec.unmarshal b s.Value).2) :=
  opt.Option.unmarshalJSON_eq_ite codec s b

/-- C3: JSON round-trip for string options: marshaling `Empty[string]()` yields
exactly the bytes `null` (and a nil error); unmarshaling `null` into a
zero-valued option yields `Empty[string]()` with a nil error; marshaling
`Value("test")` yields exactly the bytes `"test"`; unmarshaling `"test"`
yields `Value("test")` with a nil error. -/
theorem C3_json_string_roundtrip :
    (opt.Empty String).MarshalJSON stringJSONCodec = (nullJSON, none) ∧
    ((opt.Option.zero String).UnmarshalJSON stringJSONCodec nullJSON
      = (opt.Empty String, none)) ∧
    (opt.Value "test").MarshalJSON stringJSONCodec
      = ([34, 116, 101, 115, 116, 34], none) ∧
    ((opt.Option.zero String).UnmarshalJSON stringJSONCodec [34, 116, 101, 115, 116, 34]
      = (opt.Value "test", none)) :=
  ⟨rfl, rfl, rfl, rfl⟩

/-- C4: when `UnmarshalJSON` is applied to bytes other than the `null` literal
and the element type's deserialization fails (returns a non-nil error), the
resulting state still reports `HasValue = true`: the flag is committed before
decoding and not rolled back on failure. -/
theorem C4_decode_failure_keeps_flag {ε α : Type} (codec : JSONCodec ε α)
    (s : opt.Option α) (b : List Nat) (e : ε) (hb : b ≠ nullJSON)
    (he : (s.UnmarshalJSON codec b).2 = some e) :
    ((s.UnmarshalJSON codec b).1).HasValue = true := by
  rw [opt.Option.unmarshalJSON_eq_ite, if_neg hb]
  rfl

/-- Witness for C4 at concrete inputs: the single byte `x` (120) is not valid
JSON for a string, so the string codec fails, and the resulting option still
has its presence flag set. -/
theorem C4_decode_failure_keeps_flag_witness :
    ([120] : List Nat) ≠ nullJSON ∧
    ((opt.Option.mk false "").UnmarshalJSON stringJSONCodec [120]).2
      = some "json: cannot unmarshal into string" ∧
    (((opt.Option.mk false "").UnmarshalJSON stringJSONCodec [120]).1).HasValue = true :=
  ⟨by decide, by decide,
    C4_decode_failure_keeps_flag stringJSONCodec (opt.Option.mk false "") [120]
      "json: cannot unmarshal into string" (by decide) (by decide)⟩

/-- C5: SQL nullable-column round-trip: `FromSQL (Value v).ToSQL = Value v` for
every `v`, and `FromSQL` of any record with `Valid = false` equals
`Empty[T]()` regardless of the record's `V` field. -/
theorem C5_sql_roundtrip {α : Type} [Inhabited α] (v : α) (n : sql.Null α)
    (h : n.Valid = false) :
    opt.FromSQL (opt.Value v).ToSQL = opt.Value v ∧ opt.FromSQL n = opt.Empty α := by
  constructor
  · rfl
  · simp [opt.FromSQL, opt.Empty, h]

/-- Witness for C5 at concrete inputs: element type `Nat`, value 5, and the
invalid record `⟨Valid := false, V := 7⟩`. -/
theorem C5_sql_roundtrip_witness :
    (sql.Null.mk false 7).Valid = false ∧
    (opt.FromSQL (opt.Value (5 : Nat)).ToSQL = opt.Value 5 ∧
      opt.FromSQL (sql.Null.mk false 7) = opt.Empty Nat) :=
  ⟨rfl, C5_sql_roundtrip 5 (sql.Null.mk false 7) rfl⟩

/-- C6: pointer round-trip: `FromPointer (Value v).ToPointer = Value v` for
every `v`, `Empty[T]().ToPointer` is the nil pointer, and `FromPointer nil =
Empty[T]()`. -/
theorem C6_pointer_roundtrip {α : Type} [Inhabited α] (v : α) :
    opt.FromPointer (opt.Value v).ToPointer = opt.Value v ∧
    (opt.Empty α).ToPointer = none ∧
    opt.FromPointer (none : Ptr α) = opt.Empty α :=
  ⟨rfl, rfl, rfl⟩

/-- C7: the Go zero value of `Option[T]` is the empty state: it is structurally
equal to `Empty[T]()`, `IsEmpty` returns true on it, and every observation
(`HasValue`, `IsEmpty`, `Get`, `GetOrDefault`, `ToPointer`, `ToSQL`, the
`String` method) agrees with `Empty[T]()`. -/
theorem C7_zero_value_is_empty {α : Type} [Inhabited α] (d : α) (fmtT : α → String) :
    opt.Option.zero α = opt.Empty α ∧
    (opt.Option.zero α).IsEmpty = true ∧
    (opt.Option.zero α).HasValue = (opt.Empty α).HasValue ∧
    (opt.Option.zero α).IsEmpty = (opt.Empty α).IsEmpty ∧
    (opt.Option.zero α).Get = (opt.Empty α).Get ∧
    (opt.Option.zero α).GetOrDefault d = (opt.Empty α).GetOrDefault d ∧
    (opt.Option.zero α).ToPointer = (opt.Empty α).ToPointer ∧
    (opt.Option.zero α).ToSQL = (opt.Empty α).ToSQL ∧
    (opt.Option.zero α).StringRepr fmtT = (opt.Empty α).StringRepr fmtT :=
  ⟨rfl, rfl, rfl, rfl, rfl, rfl, rfl, rfl, rfl⟩

/-- C8: textual rendering: `Value(x).String()` delegates to `x`'s own string
representation (`fmt.Sprint`, abstracted as `fmtT`), and `Empty[T]().String()`
is the literal `<empty>`. -/
theorem C8_string_rendering {α : Type} [Inhabited α] (fmtT : α → String) (x : α) :
    (opt.Value x).StringRepr fmtT = fmtT x ∧
    (opt.Empty α).StringRepr fmtT = "<empty>" :=
  ⟨rfl, rfl⟩

/-- C9: every operation other than JSON unmarshaling is a total function over
its inputs — each satisfies, for all inputs, a defining equation producing a
result with no error component — and the `String` method delegates to the
element type's own formatting when a value is present (so it can only fail if
that formatting fails, and such a failure passes through unchanged). -/
theorem C9_operations_total {α : Type} [Inhabited α] (v d : α) (s : opt.Option α)
    (p : Ptr α) (n : sql.Null α) (fmtT : α → String) :
    opt.Value v = { hasValue := true, Value := v } ∧
    opt.Empty α = { hasValue := false, Value := default } ∧
    (opt.FromPointer p = match p with
      | none => opt.Empty α
      | some w => opt.Value w) ∧
    s.HasValue = s.hasValue ∧
    s.IsEmpty = !s.hasValue ∧
    s.Get = (s.Value, s.hasValue) ∧
    s.GetOrDefault d = (if s.hasValue then s.Value else d) ∧
    s.Put v = { hasValue := true, Value := v } ∧
    s.Clear = opt.Empty α ∧
    s.ToPointer = (if s.hasValue then some s.Value else none) ∧
    s.ToSQL = { Valid := s.hasValue, V := s.Value } ∧
    (opt.FromSQL n = if n.Valid then opt.Value n.V else opt.Empty α) ∧
    s.StringRepr fmtT = (if s.hasValue then fmtT s.Value else "<empty>") :=
  ⟨rfl, rfl, by cases p <;> rfl, rfl, rfl, rfl, rfl, rfl, rfl, rfl, rfl, rfl, rfl⟩

/-- C10: `Put` and `Clear` are history-independent: from every prior state,
`Put v` yields exactly `Value v` and `Clear` yields exactly `Empty[T]()`
(flag cleared and value slot reset to the default). -/
theorem C10_put_clear_history_independent {α : Type} [Inhabited α]
    (s : opt.Option α) (v : α) :
    s.Put v = opt.Value v ∧ s.Clear = opt.Empty α :=
  ⟨rfl, rfl⟩
